import Mathlib

/-
Shallow embedding of the realtime-messenger backend (packages/backend/src):
the Prisma data model (prisma migration SQL), the tRPC message and thread
routers (trpc/routers/messages.ts, trpc/routers/threads.ts), the Socket.io
room handlers (index.ts) and the socket authentication middleware
(socket/auth.ts, utils/jwt.ts).  Timestamps are modelled as natural-number
clock readings; JavaScript string lengths are modelled as code-point counts.
-/

namespace Messenger

/-- Table users (id SERIAL, username unique). -/
structure User where
  id : Nat
  username : String
deriving DecidableEq

/-- Table threads (id SERIAL, created_at, updated_at).  updatedAt is the
thread's lastActivityAt. -/
structure Thread where
  id : Nat
  createdAt : Nat
  updatedAt : Nat
deriving DecidableEq

/-- Table thread_participants (thread_id, user_id, joined_at), primary key
(thread_id, user_id). -/
structure ThreadParticipant where
  threadId : Nat
  userId : Nat
  joinedAt : Nat
deriving DecidableEq

/-- Table messages (id SERIAL, thread_id, sender_id, content, created_at). -/
structure Message where
  id : Nat
  threadId : Nat
  senderId : Nat
  content : String
  createdAt : Nat
deriving DecidableEq

/-- The durable store: the four tables plus the SERIAL counters. -/
structure DB where
  users : List User
  threads : List Thread
  parts : List ThreadParticipant
  messages : List Message
  nextMessageId : Nat
  nextThreadId : Nat
deriving DecidableEq

/-- The identity decoded from a verified JWT ({ id, username }). -/
structure AuthUser where
  id : Nat
  username : String
deriving DecidableEq

/-- Socket.io server state: authenticated connections (socket id bound to
its verified user) and room membership (room name, socket id). -/
structure SocketState where
  conns : List (Nat × AuthUser)
  rooms : List (String × Nat)
deriving DecidableEq

/-- JavaScript String.prototype.trim: strip leading and trailing
whitespace.  Written over the character list so that it evaluates by plain
structural reduction. -/
def jsTrim (s : String) : String :=
  String.mk (((s.data.dropWhile Char.isWhitespace).reverse.dropWhile
    Char.isWhitespace).reverse)

/-- Room name for a thread: the template string thread_${threadId}. -/
def threadRoom (threadId : Nat) : String :=
  "thread_" ++ toString threadId

/-- Sockets currently in a room (io.sockets.adapter view of a room). -/
def roomMembers (st : SocketState) (roomName : String) : List Nat :=
  (st.rooms.filter (fun r => r.1 == roomName)).map (fun r => r.2)

/-- prisma.threadParticipant.findUnique on the composite key
threadId_userId. -/
def findParticipant (db : DB) (threadId userId : Nat) : Option ThreadParticipant :=
  db.parts.find? (fun p => p.threadId == threadId && p.userId == userId)

/-- All message rows of a thread, in table (insertion) order:
prisma.message.findMany where threadId. -/
def threadMessages (db : DB) (threadId : Nat) : List Message :=
  db.messages.filter (fun m => m.threadId == threadId)

/-- The updatedAt (lastActivityAt) column of a thread row, if the row
exists. -/
def threadUpdatedAt (db : DB) (threadId : Nat) : Option Nat :=
  (db.threads.find? (fun t => t.id == threadId)).map (fun t => t.updatedAt)

/-- The payload shape returned by sendMessage and broadcast as new_message:
{ id, content, createdAt, sender: { id, username }, isFromCurrentUser,
threadId }. -/
structure FormattedMessage where
  id : Nat
  content : String
  createdAt : Nat
  senderId : Nat
  senderUsername : String
  isFromCurrentUser : Bool
  threadId : Nat
deriving DecidableEq

/-- One socket-level delivery of a new_message event: the receiving socket
and the emitted { threadId, message } payload. -/
structure Delivery where
  target : Nat
  threadId : Nat
  message : FormattedMessage
deriving DecidableEq

/-- Errors surfaced by the sendMessage mutation: FORBIDDEN from the access
check, internal for a failed (rolled-back) transaction. -/
inductive SendErr where
  | forbidden
  | internal
deriving DecidableEq

/-- Zod sendMessageSchema: threadId must be a positive integer (integrality
is carried by the Int input type); content runs min(1) then max(2000) then
trim, in declaration order, so the length bounds see the UNtrimmed string
and trimming is applied last as a transform. -/
def sendMessageParse (threadId : Int) (content : String) : Option (Nat × String) :=
  if 0 < threadId then
    if 1 ≤ content.length && content.length ≤ 2000 then
      some (threadId.toNat, jsTrim content)
    else none
  else none

/-- The sendMessage mutation body (messages.ts): the threadParticipant
access check, then a transaction creating the message row and setting the
thread's updatedAt, then the formatted result and — when the Socket.io
server is attached to the context — an io.to(thread room) emit of the
payload with isFromCurrentUser set to false, delivered to every socket in
the room.  t1 is the clock at message creation, t2 at the thread update.
A transaction step that cannot apply (missing sender or thread row would
make the create or update throw) rolls back: the store is unchanged. -/
def sendMessage (db : DB) (io : Option SocketState) (userId threadId : Nat)
    (content : String) (t1 t2 : Nat) :
    DB × Except SendErr (FormattedMessage × List Delivery) :=
  match findParticipant db threadId userId with
  | none => (db, Except.error SendErr.forbidden)
  | some _ =>
    match db.users.find? (fun u => u.id == userId) with
    | none => (db, Except.error SendErr.internal)
    | some sender =>
      if db.threads.any (fun t => t.id == threadId) then
        let msg : Message :=
          { id := db.nextMessageId, threadId := threadId, senderId := userId,
            content := content, createdAt := t1 }
        let db2 : DB :=
          { db with
            messages := db.messages ++ [msg],
            threads := db.threads.map (fun t =>
              if t.id == threadId then { t with updatedAt := t2 } else t),
            nextMessageId := db.nextMessageId + 1 }
        let fm : FormattedMessage :=
          { id := msg.id, content := content, createdAt := t1,
            senderId := sender.id, senderUsername := sender.username,
            isFromCurrentUser := true, threadId := threadId }
        let ds : List Delivery :=
          match io with
          | none => []
          | some st =>
            (roomMembers st (threadRoom threadId)).map (fun sid =>
              { target := sid, threadId := threadId,
                message := { fm with isFromCurrentUser := false } })
        (db2, Except.ok (fm, ds))
      else (db, Except.error SendErr.internal)

/-- Caller-facing error taxonomy of the full tRPC procedure. -/
inductive CallErr where
  | unauthorized
  | validation
  | forbidden
  | internal
deriving DecidableEq

/-- The full sendMessage procedure: protectedProcedure (UNAUTHORIZED when
the context has no user), then the zod input parse (BAD_REQUEST on
failure), then the mutation body. -/
def sendMessageProc (db : DB) (io : Option SocketState) (ctxUser : Option AuthUser)
    (threadIdRaw : Int) (contentRaw : String) (t1 t2 : Nat) :
    DB × Except CallErr (FormattedMessage × List Delivery) :=
  match ctxUser with
  | none => (db, Except.error CallErr.unauthorized)
  | some u =>
    match sendMessageParse threadIdRaw contentRaw with
    | none => (db, Except.error CallErr.validation)
    | some (threadId, content) =>
      match sendMessage db io u.id threadId content t1 t2 with
      | (db2, Except.ok r) => (db2, Except.ok r)
      | (db2, Except.error SendErr.forbidden) => (db2, Except.error CallErr.forbidden)
      | (db2, Except.error SendErr.internal) => (db2, Except.error CallErr.internal)

/-- A store with alice (1) and bob (2) sharing thread 1; alice's socket 10
is authenticated as alice and has joined the room thread_1. -/
def exDB1 : DB :=
  { users := [{ id := 1, username := "alice" }, { id := 2, username := "bob" }],
    threads := [{ id := 1, createdAt := 0, updatedAt := 0 }],
    parts := [{ threadId := 1, userId := 1, joinedAt := 0 },
              { threadId := 1, userId := 2, joinedAt := 0 }],
    messages := [],
    nextMessageId := 1,
    nextThreadId := 2 }

/-- Socket state for exDB1: only the author's own socket is subscribed. -/
def exSt1 : SocketState :=
  { conns := [(10, { id := 1, username := "alice" })],
    rooms := [(threadRoom 1, 10)] }

/-- Result contract of the getThreadMessages query: the access check passed
and the returned list is the thread's message rows ordered by createdAt
ascending.  The orderBy clause names createdAt only, so on equal createdAt
the relative order is whatever the database returns: any createdAt-sorted
permutation of the rows satisfies the query contract. -/
def getThreadMessagesResult (db : DB) (userId threadId : Nat) (out : List Message) : Prop :=
  (findParticipant db threadId userId).isSome = true ∧
  out.Perm (threadMessages db threadId) ∧
  out.Pairwise (fun a b => a.createdAt ≤ b.createdAt)

/-- One user_joined_thread event delivery: receiving socket and the
{ username, userId, threadId } payload. -/
structure JoinNotice where
  target : Nat
  username : String
  userId : Nat
  threadId : Nat
deriving DecidableEq

/-- The join_thread handler (index.ts): socket.join(thread room) followed by
socket.to(thread room).emit of user_joined_thread to the other members.
The handler has the database in scope in no form: it consults no
participation data, so the db argument is unused — any authenticated socket
is added to any requested thread room. -/
def joinThread (db : DB) (st : SocketState) (sid : Nat) (user : AuthUser)
    (threadId : Nat) : SocketState × List JoinNotice :=
  let roomName := threadRoom threadId
  let st2 : SocketState := { st with rooms := st.rooms ++ [(roomName, sid)] }
  (st2,
    ((roomMembers st2 roomName).filter (fun m => m != sid)).map (fun m =>
      { target := m, username := user.username, userId := user.id,
        threadId := threadId }))

/-- The broadcast_message handler (index.ts): re-emit the client-supplied
{ threadId, message } payload to the room thread_${threadId} via
socket.to, i.e. to every member of that room except the emitting socket,
with isFromCurrentUser overwritten to false.  Like join_thread it has no
access to the store: the db argument is unused, nothing is persisted and
no participation is checked. -/
def broadcastMessage (db : DB) (st : SocketState) (sid threadId : Nat)
    (msg : FormattedMessage) : List Delivery :=
  ((roomMembers st (threadRoom threadId)).filter (fun m => m != sid)).map (fun m =>
    { target := m, threadId := threadId,
      message := { msg with isFromCurrentUser := false } })

/-- Socket.io handshake data: the auth.token field and the raw cookie
header (socket.handshake.headers.cookie, defaulted to the empty string). -/
structure Handshake where
  authToken : Option String
  cookieHeader : String
deriving DecidableEq

/-- parseCookieString (socket/auth.ts): split on semicolons, trim each
cookie, split on the equals sign, keep pairs whose key and value are both
nonempty.  A later pair for the same key overwrites an earlier one, which
lookup-by-last models.  Percent-decoding of values is external
(decodeURIComponent) and modelled as the identity. -/
def parseCookieString (cookieString : String) : List (String × String) :=
  (cookieString.splitOn ";").foldl (fun acc cookie =>
    match (jsTrim cookie).splitOn "=" with
    | key :: value :: _ =>
      if key ≠ "" && value ≠ "" then acc ++ [(key, value)] else acc
    | _ => acc) []

/-- extractTokenFromCookies (utils/jwt.ts): the auth-token cookie, or none.
The last stored pair for the key wins, matching record assignment. -/
def extractTokenFromCookies (cookies : List (String × String)) : Option String :=
  ((cookies.filter (fun c => c.1 == "auth-token")).map (fun c => c.2)).getLast?

/-- Token selection of socketAuthMiddleware: auth.token first, falling back
to the cookie header when the field is absent or empty (JavaScript
falsiness of the empty string). -/
def handshakeToken (hs : Handshake) : Option String :=
  match hs.authToken with
  | some t =>
    if t = "" then extractTokenFromCookies (parseCookieString hs.cookieHeader)
    else some t
  | none => extractTokenFromCookies (parseCookieString hs.cookieHeader)

/-- socketAuthMiddleware (socket/auth.ts): refuse when no token is present,
refuse when verification fails, otherwise bind the verified user.  The
verify function is the external jsonwebtoken verify (signature, expiry,
issuer and audience checks), modelled as an abstract parameter that yields
the bound identity or nothing. -/
def socketAuthMiddleware (verify : String → Option AuthUser) (hs : Handshake) :
    Except String AuthUser :=
  match handshakeToken hs with
  | none => Except.error "Authentication required"
  | some t =>
    match verify t with
    | none => Except.error "Invalid authentication token"
    | some user => Except.ok user

/-- A connection attempt: io.use(socketAuthMiddleware) runs first; only
when it calls next() without error does the connection handler register the
socket with its bound user.  A refused attempt leaves the connection table
untouched. -/
def acceptConnection (verify : String → Option AuthUser) (hs : Handshake)
    (sid : Nat) (conns : List (Nat × AuthUser)) : List (Nat × AuthUser) :=
  match socketAuthMiddleware verify hs with
  | Except.error _ => conns
  | Except.ok user => (sid, user) :: conns

/-- Connection tables reachable from the empty server state by connection
attempts and disconnects. -/
inductive ReachableConns (verify : String → Option AuthUser) :
    List (Nat × AuthUser) → Prop where
  | nil : ReachableConns verify []
  | accept (hs : Handshake) (sid : Nat) (conns : List (Nat × AuthUser)) :
      ReachableConns verify conns →
      ReachableConns verify (acceptConnection verify hs sid conns)
  | disconnect (sid : Nat) (conns : List (Nat × AuthUser)) :
      ReachableConns verify conns →
      ReachableConns verify (conns.filter (fun c => c.1 != sid))

/-- Errors surfaced by the createThread mutation. -/
inductive CreateThreadErr where
  | notFound
  | selfThread
deriving DecidableEq

/-- prisma.user.findUnique on the unique username column. -/
def findUserByUsername (db : DB) (uname : String) : Option User :=
  db.users.find? (fun u => u.username == uname)

/-- The existing-DM filter of createThread (threads.ts): the thread has a
participant row for each of the two users and every participant row of the
thread is one of the two (the prisma some/some/every-in combination). -/
def isDM (ps : List ThreadParticipant) (tid uid1 uid2 : Nat) : Bool :=
  (ps.any (fun p => p.threadId == tid && p.userId == uid1)) &&
  (ps.any (fun p => p.threadId == tid && p.userId == uid2)) &&
  (ps.all (fun p => !(p.threadId == tid) || (p.userId == uid1 || p.userId == uid2)))

/-- The createThread mutation (threads.ts): resolve the target username
(NOT_FOUND when absent), reject a thread with oneself (BAD_REQUEST), return
the first existing two-party thread between the pair unchanged, otherwise
create a thread row plus one participant row per user.  The returned value
is the thread id. -/
def createThread (db : DB) (callerId : Nat) (targetUsername : String) (now : Nat) :
    DB × Except CreateThreadErr Nat :=
  match findUserByUsername db targetUsername with
  | none => (db, Except.error CreateThreadErr.notFound)
  | some target =>
    if target.id == callerId then (db, Except.error CreateThreadErr.selfThread)
    else
      match db.threads.find? (fun t => isDM db.parts t.id callerId target.id) with
      | some t => (db, Except.ok t.id)
      | none =>
        let tid := db.nextThreadId
        ({ db with
            threads := db.threads ++ [{ id := tid, createdAt := now, updatedAt := now }],
            parts := db.parts ++
              [{ threadId := tid, userId := callerId, joinedAt := now },
               { threadId := tid, userId := target.id, joinedAt := now }],
            nextThreadId := tid + 1 },
         Except.ok tid)

/-- SERIAL-column freshness: every stored id is below the counter.  This is
how the autoincrement key behaves and is preserved by every operation. -/
def FreshIds (db : DB) : Prop :=
  (∀ t ∈ db.threads, t.id < db.nextThreadId) ∧
  (∀ p ∈ db.parts, p.threadId < db.nextThreadId)

/-- A store where bob (2) is not a participant of thread 1. -/
def exDB2 : DB :=
  { users := [{ id := 1, username := "alice" }, { id := 2, username := "bob" }],
    threads := [{ id := 1, createdAt := 0, updatedAt := 0 }],
    parts := [{ threadId := 1, userId := 1, joinedAt := 0 }],
    messages := [],
    nextMessageId := 1,
    nextThreadId := 2 }

/-- Socket state for exDB2: alice's socket 11 is in the room thread_1. -/
def exSt2 : SocketState :=
  { conns := [(11, { id := 1, username := "alice" })],
    rooms := [(threadRoom 1, 11)] }

/-- Two messages of thread 1 with EQUAL createdAt, inserted m1 then m2. -/
def exM1 : Message :=
  { id := 1, threadId := 1, senderId := 1, content := "a", createdAt := 5 }

/-- Second insertion, same createdAt as exM1, larger id. -/
def exM2 : Message :=
  { id := 2, threadId := 1, senderId := 2, content := "b", createdAt := 5 }

/-- exDB1 with the tied messages exM1, exM2 stored in insertion order. -/
def exDB6 : DB :=
  { exDB1 with messages := [exM1, exM2], nextMessageId := 3 }

/-- Two messages of thread 1 with strictly increasing createdAt. -/
def exM3 : Message :=
  { id := 1, threadId := 1, senderId := 1, content := "a", createdAt := 5 }

/-- Second insertion, strictly later createdAt than exM3. -/
def exM4 : Message :=
  { id := 2, threadId := 1, senderId := 2, content := "b", createdAt := 6 }

/-- exDB1 with the strictly increasing messages exM3, exM4. -/
def exDB6b : DB :=
  { exDB1 with messages := [exM3, exM4], nextMessageId := 3 }

/-- A verify oracle accepting exactly the token tok as alice. -/
def verifyEx : String → Option AuthUser :=
  fun t => if t = "tok" then some { id := 1, username := "alice" } else none

/-- The payload sendMessage returns to alice for "hi" into thread 1 of
exDB1 at time 3. -/
def exFm1 : FormattedMessage :=
  { id := 1, content := "hi", createdAt := 3, senderId := 1,
    senderUsername := "alice", isFromCurrentUser := true, threadId := 1 }

/-- The same payload as broadcast to the room: flag forced to false. -/
def exFm1b : FormattedMessage :=
  { id := 1, content := "hi", createdAt := 3, senderId := 1,
    senderUsername := "alice", isFromCurrentUser := false, threadId := 1 }

/-- The store produced by alice's createThread("bob") on exDB2 at time 7:
thread 2 with both participant rows added. -/
def exDB2After : DB :=
  { users := [{ id := 1, username := "alice" }, { id := 2, username := "bob" }],
    threads := [{ id := 1, createdAt := 0, updatedAt := 0 },
                { id := 2, createdAt := 7, updatedAt := 7 }],
    parts := [{ threadId := 1, userId := 1, joinedAt := 0 },
              { threadId := 2, userId := 1, joinedAt := 7 },
              { threadId := 2, userId := 2, joinedAt := 7 }],
    messages := [],
    nextMessageId := 1,
    nextThreadId := 3 }

/-! Helper lemmas shared by the claim theorems. -/

theorem find?_append_left_none {α : Type} (p : α → Bool) (l1 l2 : List α)
    (h : l1.find? p = none) : (l1 ++ l2).find? p = l2.find? p := by
  induction l1 with
  | nil => rfl
  | cons a l ih =>
    cases hpa : p a with
    | true =>
      rw [List.find?_cons_of_pos _ hpa] at h
      exact absurd h (by simp)
    | false =>
      rw [List.find?_cons_of_neg _ (by simp [hpa])] at h
      rw [List.cons_append, List.find?_cons_of_neg _ (by simp [hpa])]
      exact ih h

theorem find?_map_update (l : List Thread) (threadId t2 : Nat) :
    (l.map (fun t => if t.id == threadId then { t with updatedAt := t2 } else t)).find?
        (fun t => t.id == threadId) =
      (l.find? (fun t => t.id == threadId)).map
        (fun t => { t with updatedAt := t2 }) := by
  rw [List.find?_map]
  have hcong : ((fun t : Thread => t.id == threadId) ∘ fun t =>
      if t.id == threadId then { t with updatedAt := t2 } else t) =
      (fun t : Thread => t.id == threadId) := by
    funext t
    by_cases h : (t.id == threadId) = true
    · simp [Function.comp, h]
    · simp [Function.comp, h]
  rw [hcong]
  cases hf : l.find? (fun t : Thread => t.id == threadId) with
  | none => rfl
  | some t =>
    have ht := List.find?_some hf
    simp only [Option.map_some']
    rw [if_pos ht]

theorem find?_isSome_of_any {α : Type} (p : α → Bool) (l : List α)
    (h : l.any p = true) : ∃ a, l.find? p = some a := by
  cases hf : l.find? p with
  | some a => exact ⟨a, rfl⟩
  | none =>
    obtain ⟨x, hx, hpx⟩ := List.any_eq_true.mp h
    exact absurd hpx (by simpa using List.find?_eq_none.mp hf x hx)

theorem sendMessage_none_participant (db : DB) (io : Option SocketState)
    (userId threadId : Nat) (content : String) (t1 t2 : Nat)
    (h : findParticipant db threadId userId = none) :
    sendMessage db io userId threadId content t1 t2 =
      (db, Except.error SendErr.forbidden) := by
  unfold sendMessage
  rw [h]

theorem sendMessage_no_sender (db : DB) (io : Option SocketState)
    (userId threadId : Nat) (content : String) (t1 t2 : Nat)
    (p : ThreadParticipant)
    (hp : findParticipant db threadId userId = some p)
    (hs : db.users.find? (fun u => u.id == userId) = none) :
    sendMessage db io userId threadId content t1 t2 =
      (db, Except.error SendErr.internal) := by
  unfold sendMessage
  rw [hp, hs]

theorem sendMessage_no_thread (db : DB) (io : Option SocketState)
    (userId threadId : Nat) (content : String) (t1 t2 : Nat)
    (p : ThreadParticipant) (sender : User)
    (hp : findParticipant db threadId userId = some p)
    (hs : db.users.find? (fun u => u.id == userId) = some sender)
    (ht : db.threads.any (fun t => t.id == threadId) = false) :
    sendMessage db io userId threadId content t1 t2 =
      (db, Except.error SendErr.internal) := by
  unfold sendMessage
  rw [hp, hs]
  simp [ht]

theorem sendMessage_ok_eq (db : DB) (io : Option SocketState)
    (userId threadId : Nat) (content : String) (t1 t2 : Nat)
    (p : ThreadParticipant) (sender : User)
    (hp : findParticipant db threadId userId = some p)
    (hs : db.users.find? (fun u => u.id == userId) = some sender)
    (ht : db.threads.any (fun t => t.id == threadId) = true) :
    sendMessage db io userId threadId content t1 t2 =
      ({ db with
          messages := db.messages ++
            [{ id := db.nextMessageId, threadId := threadId, senderId := userId,
               content := content, createdAt := t1 }],
          threads := db.threads.map (fun t =>
            if t.id == threadId then { t with updatedAt := t2 } else t),
          nextMessageId := db.nextMessageId + 1 },
       Except.ok
         ({ id := db.nextMessageId, content := content, createdAt := t1,
            senderId := sender.id, senderUsername := sender.username,
            isFromCurrentUser := true, threadId := threadId },
          match io with
          | none => []
          | some st =>
            (roomMembers st (threadRoom threadId)).map (fun sid =>
              { target := sid, threadId := threadId,
                message :=
                  { id := db.nextMessageId, content := content, createdAt := t1,
                    senderId := sender.id, senderUsername := sender.username,
                    isFromCurrentUser := false, threadId := threadId } }))) := by
  unfold sendMessage
  rw [hp, hs]
  simp [ht]

theorem socketAuthMiddleware_ok_verify (verify : String → Option AuthUser)
    (hs : Handshake) (u : AuthUser)
    (h : socketAuthMiddleware verify hs = Except.ok u) :
    ∃ t, handshakeToken hs = some t ∧ verify t = some u := by
  unfold socketAuthMiddleware at h
  split at h
  · exact absurd h (by simp)
  · rename_i t htok
    split at h
    · exact absurd h (by simp)
    · rename_i u2 hv
      injection h with h2
      exact ⟨t, htok, by rw [hv, h2]⟩

theorem isDM_append_fresh (ps newPs : List ThreadParticipant)
    (tid uid1 uid2 : Nat)
    (h : ∀ p ∈ newPs, (p.threadId == tid) = false) :
    isDM (ps ++ newPs) tid uid1 uid2 = isDM ps tid uid1 uid2 := by
  unfold isDM
  rw [List.any_append, List.any_append, List.all_append]
  have h1 : (newPs.any fun p => p.threadId == tid && p.userId == uid1) = false := by
    rw [List.any_eq_false]
    intro p hp
    simp [h p hp]
  have h2 : (newPs.any fun p => p.threadId == tid && p.userId == uid2) = false := by
    rw [List.any_eq_false]
    intro p hp
    simp [h p hp]
  have h3 : (newPs.all fun p =>
      !(p.threadId == tid) || (p.userId == uid1 || p.userId == uid2)) = true := by
    rw [List.all_eq_true]
    intro p hp
    simp [h p hp]
  rw [h1, h2, h3]
  simp

theorem eq_of_perm_of_sorted_of_strict {α : Type} (key : α → Nat) :
    ∀ (l out : List α), l.Pairwise (fun a b => key a < key b) →
      out.Pairwise (fun a b => key a ≤ key b) → out.Perm l → out = l := by
  intro l
  induction l with
  | nil =>
    intro out _ _ hp
    exact hp.eq_nil
  | cons a l ih =>
    intro out hl hout hp
    cases out with
    | nil => exact absurd hp.symm.eq_nil (List.cons_ne_nil a l)
    | cons b out2 =>
      have hb : b = a := by
        rcases List.mem_cons.mp (hp.subset (List.mem_cons_self b out2)) with h | h
        · exact h
        · exfalso
          have hab : key a < key b := (List.pairwise_cons.mp hl).1 b h
          rcases List.mem_cons.mp (hp.symm.subset (List.mem_cons_self a l)) with h2 | h2
          · rw [h2] at hab
            omega
          · have hba : key b ≤ key a := (List.pairwise_cons.mp hout).1 a h2
            omega
      subst hb
      have htail := ih out2 (List.pairwise_cons.mp hl).2
        (List.pairwise_cons.mp hout).2 hp.cons_inv
      rw [htail]

theorem createThread_nouser_eq (db : DB) (callerId : Nat) (uname : String)
    (now : Nat) (hu : findUserByUsername db uname = none) :
    createThread db callerId uname now =
      (db, Except.error CreateThreadErr.notFound) := by
  unfold createThread
  rw [hu]

theorem createThread_self_eq (db : DB) (callerId : Nat) (uname : String)
    (now : Nat) (target : User)
    (hu : findUserByUsername db uname = some target)
    (hself : (target.id == callerId) = true) :
    createThread db callerId uname now =
      (db, Except.error CreateThreadErr.selfThread) := by
  unfold createThread
  rw [hu]
  dsimp only
  rw [if_pos hself]

theorem createThread_existing_eq (db : DB) (callerId : Nat) (uname : String)
    (now : Nat) (target : User) (t : Thread)
    (hu : findUserByUsername db uname = some target)
    (hself : ¬(target.id == callerId) = true)
    (hf : db.threads.find? (fun t => isDM db.parts t.id callerId target.id) = some t) :
    createThread db callerId uname now = (db, Except.ok t.id) := by
  unfold createThread
  rw [hu]
  dsimp only
  rw [if_neg hself, hf]

theorem createThread_new_eq (db : DB) (callerId : Nat) (uname : String)
    (now : Nat) (target : User)
    (hu : findUserByUsername db uname = some target)
    (hself : ¬(target.id == callerId) = true)
    (hf : db.threads.find? (fun t => isDM db.parts t.id callerId target.id) = none) :
    createThread db callerId uname now =
      ({ db with
          threads := db.threads ++
            [{ id := db.nextThreadId, createdAt := now, updatedAt := now }],
          parts := db.parts ++
            [{ threadId := db.nextThreadId, userId := callerId, joinedAt := now },
             { threadId := db.nextThreadId, userId := target.id, joinedAt := now }],
          nextThreadId := db.nextThreadId + 1 },
       Except.ok db.nextThreadId) := by
  unfold createThread
  rw [hu]
  dsimp only
  rw [if_neg hself, hf]

/-! Claim theorems. -/

/-- C1: the claim says the author's own subscribed connection never
receives the broadcast with isFromCurrentUser = false.  Evaluating
sendMessage at the failing input refutes it: in exDB1/exSt1 the only
socket in the room thread_1 is socket 10, which is authenticated as the
sending user alice (id 1), and the single emitted delivery targets that
socket with isFromCurrentUser = false — io.to(room) excludes nobody. -/
theorem sendMessage_broadcasts_false_to_author :
    (sendMessage exDB1 (some exSt1) 1 1 "hi" 3 3).2 =
      Except.ok (exFm1, [{ target := 10, threadId := 1, message := exFm1b }]) ∧
    exSt1.conns = [(10, { id := 1, username := "alice" })] ∧
    exFm1b.isFromCurrentUser = false ∧ exFm1b.senderId = 1 :=
  ⟨rfl, rfl, rfl, rfl⟩

/-- C2 counterexample: bob (user 2) is no participant of thread 1 in
exDB2, yet his join_thread lands his socket 20 in the room thread_1, and a
user_joined_thread event is even delivered to alice's socket 11.  This
refutes the claim that the connection is added only if its identity is a
participant. -/
theorem joinThread_allows_nonparticipant :
    findParticipant exDB2 1 2 = none ∧
    (joinThread exDB2 exSt2 20 { id := 2, username := "bob" } 1).1.rooms =
      [(threadRoom 1, 11), (threadRoom 1, 20)] ∧
    (joinThread exDB2 exSt2 20 { id := 2, username := "bob" } 1).2 =
      [{ target := 11, username := "bob", userId := 2, threadId := 1 }] :=
  ⟨rfl, by decide, by decide⟩

/-- C2 amended: join_thread performs no participation check at all — its
outcome is independent of the participation store, the requesting socket
is added to the requested thread's room unconditionally, and a
user_joined_thread notice goes to the other members of the room. -/
theorem joinThread_unconditional (db db2 : DB) (st : SocketState) (sid : Nat)
    (user : AuthUser) (threadId : Nat) :
    joinThread db st sid user threadId = joinThread db2 st sid user threadId ∧
    (joinThread db st sid user threadId).1.rooms =
      st.rooms ++ [(threadRoom threadId, sid)] ∧
    (joinThread db st sid user threadId).2.map (fun n => n.target) =
      (roomMembers st (threadRoom threadId)).filter (fun m => m != sid) := by
  refine ⟨rfl, rfl, ?_⟩
  unfold joinThread roomMembers
  simp only [List.filter_append, List.map_append, List.map_map]
  have hm : ∀ l : List Nat, List.map ((fun n : JoinNotice => n.target) ∘ fun m =>
      { target := m, username := user.username, userId := user.id,
        threadId := threadId }) l = l := by
    intro l
    induction l with
    | nil => rfl
    | cons a l ih =>
      rw [List.map_cons, ih]
      rfl
  rw [hm, hm]
  rw [show List.filter (fun r => r.1 == threadRoom threadId)
    [(threadRoom threadId, sid)] = [(threadRoom threadId, sid)] by simp]
  rw [show List.map (fun r : String × Nat => r.2) [(threadRoom threadId, sid)] =
    [sid] from rfl]
  rw [show List.filter (fun m => m != sid) [sid] = ([] : List Nat) by simp]
  rw [List.append_nil]

/-- C3: the broadcast_message handler re-emits the client-supplied payload
with isFromCurrentUser forced to false to the room of the client-supplied
threadId (every member except the emitting socket), independently of the
store — no participation check and no persistence check, as the handler
cannot even reach the database. -/
theorem broadcastMessage_relays_unchecked (db db2 : DB) (st : SocketState)
    (sid threadId : Nat) (msg : FormattedMessage) (d : Delivery) :
    broadcastMessage db st sid threadId msg = broadcastMessage db2 st sid threadId msg ∧
    (d ∈ broadcastMessage db st sid threadId msg ↔
      d.target ∈ roomMembers st (threadRoom threadId) ∧ d.target ≠ sid ∧
      d.threadId = threadId ∧ d.message = { msg with isFromCurrentUser := false }) := by
  refine ⟨rfl, ?_⟩
  unfold broadcastMessage
  constructor
  · intro hd
    obtain ⟨m, hm, hdm⟩ := List.mem_map.mp hd
    obtain ⟨hm2, hne⟩ := List.mem_filter.mp hm
    rw [← hdm]
    exact ⟨hm2, by simpa using hne, rfl, rfl⟩
  · rintro ⟨hmem, hne, ht, hmsg⟩
    apply List.mem_map.mpr
    refine ⟨d.target, List.mem_filter.mpr ⟨hmem, by simpa using hne⟩, ?_⟩
    cases d with
    | mk dt dtid dmsg =>
      simp only at ht hmsg
      rw [ht, hmsg]

/-- C4: when the caller is not a participant of threadId — whether the
thread exists or not — sendMessage yields the FORBIDDEN error and returns
the store unchanged: no message row is created and no lastActivityAt is
touched. -/
theorem sendMessage_forbidden_nonparticipant (db : DB) (io : Option SocketState)
    (userId threadId : Nat) (content : String) (t1 t2 : Nat)
    (h : findParticipant db threadId userId = none) :
    sendMessage db io userId threadId content t1 t2 =
      (db, Except.error SendErr.forbidden) :=
  sendMessage_none_participant db io userId threadId content t1 t2 h

/-- C4 witness: in exDB2, user 2 on existing thread 1 (not a participant)
and user 1 on absent thread 5 both get the same Forbidden outcome with the
store unchanged. -/
theorem sendMessage_forbidden_nonparticipant_witness :
    sendMessage exDB2 none 2 1 "hi" 0 0 = (exDB2, Except.error SendErr.forbidden) ∧
    sendMessage exDB2 none 1 5 "hi" 0 0 = (exDB2, Except.error SendErr.forbidden) :=
  ⟨sendMessage_forbidden_nonparticipant exDB2 none 2 1 "hi" 0 0 (by decide),
   sendMessage_forbidden_nonparticipant exDB2 none 1 5 "hi" 0 0 (by decide)⟩

/-- C5: the transaction of sendMessage is atomic — every call either
leaves the store exactly as it was and reports an error, or appends
exactly one message row for the thread AND sets that thread's
lastActivityAt to the update time, both together. -/
theorem sendMessage_atomic (db : DB) (io : Option SocketState)
    (userId threadId : Nat) (content : String) (t1 t2 : Nat) :
    ((sendMessage db io userId threadId content t1 t2).1 = db ∧
      ∃ e, (sendMessage db io userId threadId content t1 t2).2 = Except.error e) ∨
    ((sendMessage db io userId threadId content t1 t2).1.messages =
        db.messages ++
          [{ id := db.nextMessageId, threadId := threadId, senderId := userId,
             content := content, createdAt := t1 }] ∧
      threadUpdatedAt (sendMessage db io userId threadId content t1 t2).1 threadId =
        some t2 ∧
      ∃ fm ds, (sendMessage db io userId threadId content t1 t2).2 =
        Except.ok (fm, ds)) := by
  cases hp : findParticipant db threadId userId with
  | none =>
    rw [sendMessage_none_participant db io userId threadId content t1 t2 hp]
    exact Or.inl ⟨rfl, SendErr.forbidden, rfl⟩
  | some p =>
    cases hs : db.users.find? (fun u => u.id == userId) with
    | none =>
      rw [sendMessage_no_sender db io userId threadId content t1 t2 p hp hs]
      exact Or.inl ⟨rfl, SendErr.internal, rfl⟩
    | some sender =>
      cases ht : db.threads.any (fun t => t.id == threadId) with
      | false =>
        rw [sendMessage_no_thread db io userId threadId content t1 t2 p sender hp hs ht]
        exact Or.inl ⟨rfl, SendErr.internal, rfl⟩
      | true =>
        rw [sendMessage_ok_eq db io userId threadId content t1 t2 p sender hp hs ht]
        refine Or.inr ⟨rfl, ?_, _, _, rfl⟩
        unfold threadUpdatedAt
        show ((db.threads.map (fun t =>
          if t.id == threadId then { t with updatedAt := t2 } else t)).find?
            (fun t => t.id == threadId)).map (fun t => t.updatedAt) = some t2
        rw [find?_map_update]
        obtain ⟨t, hft⟩ := find?_isSome_of_any _ _ ht
        rw [hft]
        rfl

/-- C6 counterexample: in exDB6 the two rows of thread 1 were inserted
exM1 then exM2 with EQUAL createdAt.  The list [exM2, exM1] satisfies the
getThreadMessages query contract (participant check passed, permutation of
the thread rows, sorted by createdAt) yet is not the insertion order — the
orderBy clause has no id tie-break, so the claimed id-ascending tie order
is not what the code requests. -/
theorem getThreadMessages_tie_not_insertion_order :
    getThreadMessagesResult exDB6 1 1 [exM2, exM1] ∧
    threadMessages exDB6 1 = [exM1, exM2] ∧
    [exM2, exM1] ≠ [exM1, exM2] :=
  ⟨⟨by decide, by decide, by decide⟩, by decide, by decide⟩

/-- C6 amended: getThreadMessages returns the thread's messages sorted by
createdAt ascending only — there is no id tie-break, so the order of rows
with equal createdAt is not determined; whenever the stored rows of the
thread have strictly increasing createdAt (no timestamp ties), the result
is exactly the insertion order. -/
theorem getThreadMessages_insertion_order_when_strict (db : DB)
    (userId threadId : Nat) (out : List Message)
    (h : getThreadMessagesResult db userId threadId out)
    (hstrict : (threadMessages db threadId).Pairwise
      (fun a b => a.createdAt < b.createdAt)) :
    out.Pairwise (fun a b => a.createdAt ≤ b.createdAt) ∧
    out = threadMessages db threadId :=
  ⟨h.2.2, eq_of_perm_of_sorted_of_strict (fun m => m.createdAt) _ _ hstrict h.2.2 h.2.1⟩

/-- C6 amended, witness: with strictly increasing createdAt (exDB6b) the
only admissible result is the insertion order. -/
theorem getThreadMessages_insertion_order_witness :
    [exM3, exM4] = threadMessages exDB6b 1 :=
  (getThreadMessages_insertion_order_when_strict exDB6b 1 1 [exM3, exM4]
    ⟨by decide, by decide, by decide⟩ (by decide)).2

/-- C7: the claim says whitespace-only content is rejected with a
validation error before any further step.  Evaluating the schema at the
failing input content = " " refutes it: zod runs min(1) on the untrimmed
string and applies trim afterwards, so " " passes validation, becomes "",
and the full procedure persists a message whose content is empty. -/
theorem sendMessageProc_accepts_whitespace_only :
    sendMessageParse 1 " " = some (1, "") ∧
    (sendMessageProc exDB1 (some exSt1) (some { id := 1, username := "alice" })
        1 " " 3 3).1.messages =
      [{ id := 1, threadId := 1, senderId := 1, content := "", createdAt := 3 }] :=
  ⟨rfl, rfl⟩

/-- C8: createThread is idempotent for a fixed pair — whenever a call
succeeds with thread id tid on a store with fresh SERIAL counters, an
immediately repeated call returns the same id and leaves the store
untouched: no new thread row and no new participation rows. -/
theorem createThread_idempotent (db db1 : DB) (callerId : Nat) (uname : String)
    (n1 n2 tid1 : Nat)
    (hwfT : ∀ t ∈ db.threads, t.id < db.nextThreadId)
    (hwfP : ∀ p ∈ db.parts, p.threadId < db.nextThreadId)
    (h1 : createThread db callerId uname n1 = (db1, Except.ok tid1)) :
    createThread db1 callerId uname n2 = (db1, Except.ok tid1) := by
  cases hu : findUserByUsername db uname with
  | none =>
    rw [createThread_nouser_eq db callerId uname n1 hu] at h1
    injection h1 with hfst hsnd
    injection hsnd
  | some target =>
    by_cases hself : (target.id == callerId) = true
    · rw [createThread_self_eq db callerId uname n1 target hu hself] at h1
      injection h1 with hfst hsnd
      injection hsnd
    · cases hf : db.threads.find? (fun t => isDM db.parts t.id callerId target.id) with
      | some t =>
        rw [createThread_existing_eq db callerId uname n1 target t hu hself hf] at h1
        injection h1 with hfst hsnd
        injection hsnd with htid
        subst hfst
        subst htid
        exact createThread_existing_eq db callerId uname n2 target t hu hself hf
      | none =>
        rw [createThread_new_eq db callerId uname n1 target hu hself hf] at h1
        injection h1 with hfst hsnd
        injection hsnd with htid
        subst hfst
        subst htid
        have hfresh : ∀ p ∈
            [({ threadId := db.nextThreadId, userId := callerId, joinedAt := n1 }
                : ThreadParticipant),
             { threadId := db.nextThreadId, userId := target.id, joinedAt := n1 }],
            ∀ tid, tid < db.nextThreadId → (p.threadId == tid) = false := by
          intro p hp tid htid
          rcases List.mem_cons.mp hp with hp1 | hp1
          · rw [hp1]
            simp only [beq_eq_false_iff_ne, ne_eq]
            omega
          · rcases List.mem_cons.mp hp1 with hp2 | hp2
            · rw [hp2]
              simp only [beq_eq_false_iff_ne, ne_eq]
              omega
            · cases hp2
        have holdnone : (db.threads.find? (fun t =>
            isDM (db.parts ++
              [{ threadId := db.nextThreadId, userId := callerId, joinedAt := n1 },
               { threadId := db.nextThreadId, userId := target.id, joinedAt := n1 }])
              t.id callerId target.id)) = none := by
          rw [List.find?_eq_none]
          intro t htmem
          rw [isDM_append_fresh _ _ _ _ _
            (fun p hp => hfresh p hp t.id (hwfT t htmem))]
          have := List.find?_eq_none.mp hf t htmem
          simpa using this
        have hnew : (isDM (db.parts ++
            [{ threadId := db.nextThreadId, userId := callerId, joinedAt := n1 },
             { threadId := db.nextThreadId, userId := target.id, joinedAt := n1 }])
            db.nextThreadId callerId target.id) = true := by
          unfold isDM
          rw [List.any_append, List.any_append, List.all_append]
          have ha1 : ([({ threadId := db.nextThreadId, userId := callerId, joinedAt := n1 }
              : ThreadParticipant),
              { threadId := db.nextThreadId, userId := target.id, joinedAt := n1 }].any
              fun p => p.threadId == db.nextThreadId && p.userId == callerId) = true := by
            simp
          have ha2 : ([({ threadId := db.nextThreadId, userId := callerId, joinedAt := n1 }
              : ThreadParticipant),
              { threadId := db.nextThreadId, userId := target.id, joinedAt := n1 }].any
              fun p => p.threadId == db.nextThreadId && p.userId == target.id) = true := by
            simp
          have hall1 : (db.parts.all fun p =>
              !(p.threadId == db.nextThreadId) ||
                (p.userId == callerId || p.userId == target.id)) = true := by
            rw [List.all_eq_true]
            intro p hp
            have hlt := hwfP p hp
            have hne : (p.threadId == db.nextThreadId) = false := by
              simp only [beq_eq_false_iff_ne, ne_eq]
              omega
            rw [hne]
            rfl
          have hall2 : ([({ threadId := db.nextThreadId, userId := callerId, joinedAt := n1 }
              : ThreadParticipant),
              { threadId := db.nextThreadId, userId := target.id, joinedAt := n1 }].all
              fun p => !(p.threadId == db.nextThreadId) ||
                (p.userId == callerId || p.userId == target.id)) = true := by
            simp
          rw [ha1, ha2, hall1, hall2]
          simp
        have hf2 : ({ db with
            threads := db.threads ++
              [{ id := db.nextThreadId, createdAt := n1, updatedAt := n1 }],
            parts := db.parts ++
              [{ threadId := db.nextThreadId, userId := callerId, joinedAt := n1 },
               { threadId := db.nextThreadId, userId := target.id, joinedAt := n1 }],
            nextThreadId := db.nextThreadId + 1 } : DB).threads.find?
            (fun t => isDM ({ db with
              threads := db.threads ++
                [{ id := db.nextThreadId, createdAt := n1, updatedAt := n1 }],
              parts := db.parts ++
                [{ threadId := db.nextThreadId, userId := callerId, joinedAt := n1 },
                 { threadId := db.nextThreadId, userId := target.id, joinedAt := n1 }],
              nextThreadId := db.nextThreadId + 1 } : DB).parts t.id callerId target.id) =
            some { id := db.nextThreadId, createdAt := n1, updatedAt := n1 } := by
          show (db.threads ++
              [({ id := db.nextThreadId, createdAt := n1, updatedAt := n1 } : Thread)]).find?
              (fun t => isDM (db.parts ++
                [{ threadId := db.nextThreadId, userId := callerId, joinedAt := n1 },
                 { threadId := db.nextThreadId, userId := target.id, joinedAt := n1 }])
                t.id callerId target.id) =
            some { id := db.nextThreadId, createdAt := n1, updatedAt := n1 }
          rw [find?_append_left_none _ _ _ holdnone]
          exact List.find?_cons_of_pos _ hnew
        exact createThread_existing_eq _ callerId uname n2 target
          { id := db.nextThreadId, createdAt := n1, updatedAt := n1 } hu hself hf2

/-- C8 witness: alice's second createThread("bob") on the store produced
by her first call returns the same thread id 2 and changes nothing. -/
theorem createThread_idempotent_witness :
    createThread exDB2After 1 "bob" 9 = (exDB2After, Except.ok 2) :=
  createThread_idempotent exDB2 exDB2After 1 "bob" 7 9 2
    (by decide) (by decide) rfl

/-- C9: connection attempts without a token or with a token the verifier
rejects are refused before registration — a refused attempt leaves the
connection table unchanged — and every connection in any reachable table
carries an identity produced by a successful verification: no accepted
connection ever lacks a verified bound identity. -/
theorem socket_auth_refusal_and_identity (verify : String → Option AuthUser) :
    (∀ (hs : Handshake) (sid : Nat) (conns : List (Nat × AuthUser)) (e : String),
      socketAuthMiddleware verify hs = Except.error e →
      acceptConnection verify hs sid conns = conns) ∧
    (∀ conns, ReachableConns verify conns → ∀ c ∈ conns, ∃ t, verify t = some c.2) := by
  constructor
  · intro hs sid conns e he
    unfold acceptConnection
    rw [he]
  · intro conns h
    induction h with
    | nil =>
      intro c hc
      cases hc
    | accept hs sid conns2 hr ih =>
      intro c hc
      unfold acceptConnection at hc
      cases hm : socketAuthMiddleware verify hs with
      | error e =>
        rw [hm] at hc
        exact ih c hc
      | ok u =>
        rw [hm] at hc
        cases List.mem_cons.mp hc with
        | inl hceq =>
          obtain ⟨t, _, hv⟩ := socketAuthMiddleware_ok_verify verify hs u hm
          subst hceq
          exact ⟨t, hv⟩
        | inr hmem => exact ih c hmem
    | disconnect sid conns2 hr ih =>
      intro c hc
      exact ih c (List.mem_of_mem_filter hc)

/-- C9 witness: a handshake carrying a token the verifier rejects is
refused and registers nothing. -/
theorem socket_auth_refusal_witness :
    acceptConnection verifyEx { authToken := some "bad", cookieHeader := "" } 7 [] = [] :=
  (socket_auth_refusal_and_identity verifyEx).1
    { authToken := some "bad", cookieHeader := "" } 7 []
    "Invalid authentication token" rfl

/-- C10: for a participant caller on an existing thread (with a monotone
clock, the update timestamp not before the creation timestamp),
sendMessage succeeds with a message whose senderId is the caller and whose
createdAt is bounded by the thread's new lastActivityAt. -/
theorem sendMessage_sender_and_activity (db : DB) (io : Option SocketState)
    (userId threadId : Nat) (content : String) (t1 t2 : Nat)
    (p : ThreadParticipant) (sender : User)
    (hp : findParticipant db threadId userId = some p)
    (hs : db.users.find? (fun u => u.id == userId) = some sender)
    (ht : db.threads.any (fun t => t.id == threadId) = true)
    (hmono : t1 ≤ t2) :
    ∃ fm ds,
      (sendMessage db io userId threadId content t1 t2).2 = Except.ok (fm, ds) ∧
      fm.senderId = userId ∧ fm.createdAt = t1 ∧
      threadUpdatedAt (sendMessage db io userId threadId content t1 t2).1 threadId =
        some t2 ∧
      fm.createdAt ≤ t2 := by
  have hsid : sender.id = userId := by
    have := List.find?_some hs
    simpa using this
  rw [sendMessage_ok_eq db io userId threadId content t1 t2 p sender hp hs ht]
  refine ⟨_, _, rfl, hsid, rfl, ?_, hmono⟩
  unfold threadUpdatedAt
  show ((db.threads.map (fun t =>
    if t.id == threadId then { t with updatedAt := t2 } else t)).find?
      (fun t => t.id == threadId)).map (fun t => t.updatedAt) = some t2
  rw [find?_map_update]
  obtain ⟨t, hft⟩ := find?_isSome_of_any _ _ ht
  rw [hft]
  rfl

/-- C10 witness: alice sends "hi" to thread 1 of exDB1 at times 3 and 4;
the result carries her id and createdAt 3 and the thread's lastActivityAt
becomes 4 which bounds createdAt. -/
theorem sendMessage_sender_and_activity_witness :
    ∃ fm ds,
      (sendMessage exDB1 (some exSt1) 1 1 "hi" 3 4).2 = Except.ok (fm, ds) ∧
      fm.senderId = 1 ∧ fm.createdAt = 3 ∧
      threadUpdatedAt (sendMessage exDB1 (some exSt1) 1 1 "hi" 3 4).1 1 = some 4 ∧
      fm.createdAt ≤ 4 :=
  sendMessage_sender_and_activity exDB1 (some exSt1) 1 1 "hi" 3 4
    { threadId := 1, userId := 1, joinedAt := 0 } { id := 1, username := "alice" }
    (by decide) (by decide) (by decide) (by decide)

end Messenger
